import Mathlib

/-!
A shallow embedding of the warehouse inventory management tool
(`src/models.py`, `src/service.py`, `src/storage.py`, `src/exceptions.py`)
and proofs about it.

Python dicts are modelled as insertion-ordered association lists
`List (String × α)` with the dict primitives `dget` (lookup), `dset`
(`d[k] = v`: update in place, or append for a fresh key), `derase`
(`del d[k]`) and `dmem` (`k in d`).  Python `int` is `Int`; exceptions
become `Except` / an `Option` error component.  File storage is modelled
by a `FileContent` value (missing file, empty file, unparsable bytes, or
a parsed JSON document); the advisory file lock and raw I/O are
summarised by a boolean `lockFail` parameter: when it is set, a store
call raises `StorageError` and leaves the file as it was (the
write-temp-then-atomic-rename pattern guarantees the old snapshot
survives a failed write).
-/

namespace Warehouse

/-- Python dict lookup `d.get(k)` on an insertion-ordered association list. -/
def dget {α : Type} : List (String × α) → String → Option α
  | [], _ => none
  | (k', v) :: rest, k => if k' = k then some v else dget rest k

/-- Python `k in d`. -/
def dmem {α : Type} (l : List (String × α)) (k : String) : Bool :=
  (dget l k).isSome

/-- Python `d[k] = v`: replaces the value in place when the key is present
(insertion order kept), appends a fresh entry otherwise. -/
def dset {α : Type} : List (String × α) → String → α → List (String × α)
  | [], k, v => [(k, v)]
  | (k', v') :: rest, k, v =>
      if k' = k then (k, v) :: rest else (k', v') :: dset rest k v

/-- Python `del d[k]`: drops the (unique) entry with key `k`. -/
def derase {α : Type} : List (String × α) → String → List (String × α)
  | [], _ => []
  | (k', v') :: rest, k => if k' = k then rest else (k', v') :: derase rest k

/-- Keys are pairwise distinct: the invariant that makes an association
list a faithful picture of a Python dict. -/
def nodupKeys {α : Type} : List (String × α) → Bool
  | [] => true
  | (k, _) :: rest => !(dmem rest k) && nodupKeys rest

/-- The id validation of `models.py`: `s.replace('_', '').isalnum()` (restricted
to ASCII alphanumerics, which covers every id the program's protocol
produces).  Empty strings and pure-underscore strings are invalid. -/
def validId (s : String) : Bool :=
  let stripped := s.data.filter (fun c => !(c = '_'))
  !stripped.isEmpty && stripped.all Char.isAlphanum

/-- The exception kinds of `exceptions.py`, plus Python's built-in
`ValueError` / `KeyError` that `models.py` raises directly. -/
inductive WarehouseError where
  | locationAlreadyExists (location_id : String)
  | locationNotFound (location_id : String)
  | locationHasInventory (location_id : String)
  | itemNotFound (item_id location_id : String)
  | insufficientQuantity (item_id location_id : String) (requested available : Int)
  | valueError (msg : String)
  | keyError (msg : String)
  | storageError (msg : String)
deriving DecidableEq, Repr

/-- Discriminator for `StorageError` (`isinstance(e, StorageError)`). -/
def WarehouseError.isStorage : WarehouseError → Bool
  | .storageError _ => true
  | _ => false

/-- Model of `models.InventoryItem`: an item id together with its quantity. -/
structure InventoryItem where
  item_id : String
  quantity : Int
deriving DecidableEq, Repr

/-- Model of `InventoryItem.__init__` plus `__post_init__`: construction validates the
id and requires a positive quantity, raising `ValueError` otherwise. -/
def mkInventoryItem (item_id : String) (quantity : Int) :
    Except WarehouseError InventoryItem :=
  if item_id = "" then
    .error (.valueError "item_id must be a non-empty string")
  else if !(validId item_id) then
    .error (.valueError "item_id must be alphanumeric")
  else if quantity ≤ 0 then
    .error (.valueError "quantity must be a positive integer")
  else
    .ok { item_id := item_id, quantity := quantity }

/-- Model of `models.Location`: a location id and its inventory dict. -/
structure Location where
  location_id : String
  inventory : List (String × InventoryItem)
deriving DecidableEq, Repr

/-- Model of `Location.__init__` plus `__post_init__` with an empty inventory. -/
def mkLocation (location_id : String) : Except WarehouseError Location :=
  if location_id = "" then
    .error (.valueError "location_id must be a non-empty string")
  else if !(validId location_id) then
    .error (.valueError "location_id must be alphanumeric")
  else
    .ok { location_id := location_id, inventory := [] }

/-- Model of `Location.has_inventory`. -/
def Location.has_inventory (loc : Location) : Bool :=
  !loc.inventory.isEmpty

/-- Model of `Location.get_item_quantity`: the stored quantity, `0` when absent. -/
def Location.get_item_quantity (loc : Location) (item_id : String) : Int :=
  match dget loc.inventory item_id with
  | some item => item.quantity
  | none => 0

/-- Model of `Location.add_item`: increment an existing record in place, or create
a fresh (validated) record. -/
def Location.add_item (loc : Location) (item_id : String) (quantity : Int) :
    Except WarehouseError Location :=
  match dget loc.inventory item_id with
  | some item =>
      let item' : InventoryItem := { item with quantity := item.quantity + quantity }
      .ok { loc with inventory := dset loc.inventory item_id item' }
  | none =>
      match mkInventoryItem item_id quantity with
      | .error e => .error e
      | .ok item =>
          .ok { loc with inventory := dset loc.inventory item_id item }

/-- Model of `Location.remove_item`: `KeyError` when the item is absent,
`ValueError` when more than the available quantity is requested;
decrementing exactly to zero deletes the record. -/
def Location.remove_item (loc : Location) (item_id : String) (quantity : Int) :
    Except WarehouseError Location :=
  match dget loc.inventory item_id with
  | none => .error (.keyError "Item not found in location")
  | some item =>
      if item.quantity < quantity then
        .error (.valueError "Insufficient quantity")
      else
        let new_quantity := item.quantity - quantity
        if new_quantity = 0 then
          .ok { loc with inventory := derase loc.inventory item_id }
        else
          let item' : InventoryItem := { item with quantity := new_quantity }
          .ok { loc with inventory := dset loc.inventory item_id item' }

/-- Model of `Location.get_sorted_items`: the inventory's values sorted
ascending by `item_id` (Python's stable `sorted` with a key). -/
def Location.get_sorted_items (loc : Location) : List InventoryItem :=
  (loc.inventory.map Prod.snd).mergeSort
    (fun a b => decide (a.item_id ≤ b.item_id))

/-- The JSON values the storage layer reads and writes (only strings,
integers and objects occur in the snapshot format). -/
inductive Json where
  | str (s : String)
  | int (n : Int)
  | obj (fields : List (String × Json))

/-- Model of `InventoryItem.to_dict`. -/
def InventoryItem.to_dict (it : InventoryItem) : Json :=
  .obj [("item_id", .str it.item_id), ("quantity", .int it.quantity)]

/-- Model of `InventoryItem.from_dict`: `KeyError` on a missing key, `ValueError`
(from `__post_init__`) on a wrong type or an invalid value. -/
def InventoryItem.from_dict (j : Json) : Except WarehouseError InventoryItem :=
  match j with
  | .obj fields =>
      match dget fields "item_id" with
      | none => .error (.keyError "item_id")
      | some (.str item_id) =>
          match dget fields "quantity" with
          | none => .error (.keyError "quantity")
          | some (.int quantity) => mkInventoryItem item_id quantity
          | some _ => .error (.valueError "quantity must be a positive integer")
      | some _ => .error (.valueError "item_id must be a non-empty string")
  | _ => .error (.valueError "item data must be an object")

/-- Model of `Location.to_dict`: the inventory dict serialized entry by entry. -/
def Location.to_dict (loc : Location) : Json :=
  .obj [("location_id", .str loc.location_id),
        ("inventory", .obj (loc.inventory.map (fun p => (p.1, p.2.to_dict))))]

/-- The dict comprehension inside `Location.from_dict`, entry by entry. -/
def invFromFields : List (String × Json) →
    Except WarehouseError (List (String × InventoryItem))
  | [] => .ok []
  | (k, v) :: rest =>
      match InventoryItem.from_dict v with
      | .error e => .error e
      | .ok item =>
          match invFromFields rest with
          | .error e => .error e
          | .ok tail => .ok ((k, item) :: tail)

/-- Model of `Location.from_dict`: rebuilds the location from `data["location_id"]`
and `data.get("inventory", {})`. -/
def Location.from_dict (j : Json) : Except WarehouseError Location :=
  match j with
  | .obj fields =>
      match dget fields "location_id" with
      | none => .error (.keyError "location_id")
      | some (.str location_id) =>
          match mkLocation location_id with
          | .error e => .error e
          | .ok loc =>
              match (dget fields "inventory").getD (.obj []) with
              | .obj invFields =>
                  match invFromFields invFields with
                  | .error e => .error e
                  | .ok inv => .ok { loc with inventory := inv }
              | _ => .error (.valueError "inventory must be an object")
      | some _ => .error (.valueError "location_id must be a non-empty string")
  | _ => .error (.valueError "location data must be an object")

/-- What the storage file can hold: no file, a zero-byte file, bytes that
do not parse as JSON, or a parsed JSON document. -/
inductive FileContent where
  | missing
  | empty
  | malformed
  | content (j : Json)

/-- The snapshot document `FileStorage.save` serializes:
`{"locations": {location_id: location.to_dict()}}`. -/
def encodeState (locations : List (String × Location)) : Json :=
  .obj [("locations", .obj (locations.map (fun p => (p.1, p.2.to_dict))))]

/-- The loop inside `FileStorage.load` rebuilding the locations dict. -/
def decodeLocations : List (String × Json) →
    Except WarehouseError (List (String × Location))
  | [] => .ok []
  | (k, v) :: rest =>
      match Location.from_dict v with
      | .error e => .error e
      | .ok loc =>
          match decodeLocations rest with
          | .error e => .error e
          | .ok tail => .ok ((k, loc) :: tail)

/-- Model of `FileStorage.load`: a missing or zero-size file yields the empty
state; unparsable bytes and every deserialization failure surface as
`StorageError` (load's catch-all handlers). -/
def FileStorage.load (file : FileContent) :
    Except WarehouseError (List (String × Location)) :=
  match file with
  | .missing => .ok []
  | .empty => .ok []
  | .malformed => .error (.storageError "Invalid JSON in storage file")
  | .content j =>
      match j with
      | .obj fields =>
          match (dget fields "locations").getD (.obj []) with
          | .obj locFields =>
              match decodeLocations locFields with
              | .error _ => .error (.storageError "Unexpected error loading state")
              | .ok locations => .ok locations
          | _ => .error (.storageError "Unexpected error loading state")
      | _ => .error (.storageError "Unexpected error loading state")

/-- Model of `FileStorage.save`: serializes the whole state and atomically
replaces the file; `lockFail` summarises lock-timeout / I/O failure, in
which case a `StorageError` is raised and (thanks to the
write-temp-then-rename pattern) the previous snapshot stays intact. -/
def FileStorage.save (lockFail : Bool) (locations : List (String × Location)) :
    Except WarehouseError FileContent :=
  if lockFail then .error (.storageError "Failed to acquire file lock")
  else .ok (.content (encodeState locations))

/-- The state a `WarehouseService` process owns: the authoritative
in-memory locations dict plus the on-disk snapshot it persists to. -/
structure ServiceState where
  locations : List (String × Location)
  file : FileContent

/-- The observable outcome of a mutating call: the exception raised (if
any) and the state of the world afterwards.  Python exceptions do not
roll anything back, so the post-state is reported even on failure. -/
abbrev SvcOutcome := Option WarehouseError × ServiceState

/-- Model of `WarehouseService._save_state`: persist `locations'`; on a
`StorageError` the mutation stays in memory while the disk keeps the old
snapshot. -/
def WarehouseService.saveState (lockFail : Bool) (st : ServiceState)
    (locations' : List (String × Location)) : SvcOutcome :=
  match FileStorage.save lockFail locations' with
  | .error e => (some e, { locations := locations', file := st.file })
  | .ok f => (none, { locations := locations', file := f })

/-- Model of `WarehouseService.register_location`. -/
def WarehouseService.register_location (lockFail : Bool) (st : ServiceState)
    (location_id : String) : SvcOutcome :=
  if dmem st.locations location_id then
    (some (.locationAlreadyExists location_id), st)
  else
    match mkLocation location_id with
    | .error e => (some e, st)
    | .ok loc =>
        WarehouseService.saveState lockFail st (dset st.locations location_id loc)

/-- Model of `WarehouseService.unregister_location`. -/
def WarehouseService.unregister_location (lockFail : Bool) (st : ServiceState)
    (location_id : String) : SvcOutcome :=
  match dget st.locations location_id with
  | none => (some (.locationNotFound location_id), st)
  | some loc =>
      if loc.has_inventory then
        (some (.locationHasInventory location_id), st)
      else
        WarehouseService.saveState lockFail st (derase st.locations location_id)

/-- Model of `WarehouseService.increment_inventory`. -/
def WarehouseService.increment_inventory (lockFail : Bool) (st : ServiceState)
    (location_id item_id : String) (quantity : Int) : SvcOutcome :=
  match dget st.locations location_id with
  | none => (some (.locationNotFound location_id), st)
  | some loc =>
      if quantity ≤ 0 then
        (some (.valueError "Quantity must be positive"), st)
      else
        match loc.add_item item_id quantity with
        | .error e => (some e, st)
        | .ok loc' =>
            WarehouseService.saveState lockFail st (dset st.locations location_id loc')

/-- Model of `WarehouseService.decrement_inventory`, including its defensive
`except (KeyError, ValueError)` translation (dead given the guards). -/
def WarehouseService.decrement_inventory (lockFail : Bool) (st : ServiceState)
    (location_id item_id : String) (quantity : Int) : SvcOutcome :=
  match dget st.locations location_id with
  | none => (some (.locationNotFound location_id), st)
  | some loc =>
      if quantity ≤ 0 then
        (some (.valueError "Quantity must be positive"), st)
      else if !(dmem loc.inventory item_id) then
        (some (.itemNotFound item_id location_id), st)
      else
        let available := loc.get_item_quantity item_id
        if available < quantity then
          (some (.insufficientQuantity item_id location_id quantity available), st)
        else
          match loc.remove_item item_id quantity with
          | .error (.keyError _) => (some (.itemNotFound item_id location_id), st)
          | .error _ =>
              (some (.insufficientQuantity item_id location_id quantity available), st)
          | .ok loc' =>
              WarehouseService.saveState lockFail st (dset st.locations location_id loc')

/-- Model of `WarehouseService.transfer_inventory`.  Source and destination are
objects aliased through the locations dict, so after the removal is
written back the destination is read from the updated dict: when both
ids coincide the addition sees the removal's effect, exactly as the two
in-place mutations of the one shared `Location` object do in Python. -/
def WarehouseService.transfer_inventory (lockFail : Bool) (st : ServiceState)
    (src_location_id dest_location_id item_id : String) (quantity : Int) :
    SvcOutcome :=
  match dget st.locations src_location_id with
  | none => (some (.locationNotFound src_location_id), st)
  | some src_location =>
      if !(dmem st.locations dest_location_id) then
        (some (.locationNotFound dest_location_id), st)
      else if quantity ≤ 0 then
        (some (.valueError "Quantity must be positive"), st)
      else if !(dmem src_location.inventory item_id) then
        (some (.itemNotFound item_id src_location_id), st)
      else
        let available := src_location.get_item_quantity item_id
        if available < quantity then
          (some (.insufficientQuantity item_id src_location_id quantity available), st)
        else
          match src_location.remove_item item_id quantity with
          | .error e => (some e, st)
          | .ok src_location' =>
              let locations1 := dset st.locations src_location_id src_location'
              match dget locations1 dest_location_id with
              | none => (some (.locationNotFound dest_location_id),
                         { st with locations := locations1 })
              | some dest_location =>
                  match dest_location.add_item item_id quantity with
                  | .error e => (some e, { st with locations := locations1 })
                  | .ok dest_location' =>
                      WarehouseService.saveState lockFail st
                        (dset locations1 dest_location_id dest_location')

/-- Model of `WarehouseService.observe_inventory` (read-only, never persists). -/
def WarehouseService.observe_inventory (st : ServiceState)
    (location_id : String) : Except WarehouseError (List InventoryItem) :=
  match dget st.locations location_id with
  | none => .error (.locationNotFound location_id)
  | some loc => .ok loc.get_sorted_items

/-- The five mutating operations, as one alphabet of commands. -/
inductive Op where
  | register (location_id : String)
  | unregister (location_id : String)
  | increment (location_id item_id : String) (quantity : Int)
  | decrement (location_id item_id : String) (quantity : Int)
  | transfer (src_location_id dest_location_id item_id : String) (quantity : Int)

/-- Dispatch a mutating operation. -/
def applyOp (lockFail : Bool) (op : Op) (st : ServiceState) : SvcOutcome :=
  match op with
  | .register lid => WarehouseService.register_location lockFail st lid
  | .unregister lid => WarehouseService.unregister_location lockFail st lid
  | .increment lid iid q => WarehouseService.increment_inventory lockFail st lid iid q
  | .decrement lid iid q => WarehouseService.decrement_inventory lockFail st lid iid q
  | .transfer src dst iid q =>
      WarehouseService.transfer_inventory lockFail st src dst iid q

/-- States a fresh service (empty dict, no snapshot file yet) can reach
through the public mutating operations — failed persists included, since
a Python exception keeps whatever the operation already mutated. -/
inductive Reachable : ServiceState → Prop
  | init : Reachable { locations := [], file := FileContent.missing }
  | step (lockFail : Bool) (op : Op) {st : ServiceState} :
      Reachable st → Reachable (applyOp lockFail op st).2

/-- Run a whole list of `increment_inventory` calls for one item at one
location (persist succeeding), stopping at the first exception. -/
def runIncrements (st : ServiceState) (location_id item_id : String) :
    List Int → SvcOutcome
  | [] => (none, st)
  | q :: qs =>
      match WarehouseService.increment_inventory false st location_id item_id q with
      | (some e, st') => (some e, st')
      | (none, st') => runIncrements st' location_id item_id qs

/-- The quantity of `item_id` recorded at `location_id` (0 when either
is absent), i.e. `get_item_quantity` lifted to the service state. -/
def quantityAt (st : ServiceState) (location_id item_id : String) : Int :=
  match dget st.locations location_id with
  | some loc => loc.get_item_quantity item_id
  | none => 0

/-- The item record of `item_id` at `location_id`, when both exist. -/
def itemAt (st : ServiceState) (location_id item_id : String) :
    Option InventoryItem :=
  match dget st.locations location_id with
  | some loc => dget loc.inventory item_id
  | none => none

/-- Well-formed inventory dict: distinct keys, every record stored under
its own id, ids valid, quantities positive — the data-model invariants
of `models.py`. -/
def WFInventory (inv : List (String × InventoryItem)) : Bool :=
  nodupKeys inv &&
  inv.all (fun p =>
    p.2.item_id == p.1 && validId p.1 && decide (0 < p.2.quantity))

/-- Well-formed locations dict: distinct keys, every location stored
under its own id, ids valid, inventories well-formed. -/
def WFLocations (locations : List (String × Location)) : Bool :=
  nodupKeys locations &&
  locations.all (fun p =>
    p.2.location_id == p.1 && validId p.1 && WFInventory p.2.inventory)

/-- A concrete location with two items, used to instantiate theorems. -/
def sampleLocA : Location where
  location_id := "A"
  inventory := [("i1", { item_id := "i1", quantity := 5 }), ("i2", { item_id := "i2", quantity := 7 })]

/-- A concrete single-location state used to instantiate theorems. -/
def sampleState : ServiceState where
  locations := [("A", sampleLocA)]
  file := FileContent.missing

/-- A concrete two-location state used to instantiate theorems. -/
def sampleState2 : ServiceState where
  locations := [("A", { location_id := "A", inventory := [("i1", { item_id := "i1", quantity := 5 })] }), ("B", { location_id := "B", inventory := [] })]
  file := FileContent.missing

/-- Pointwise equality of inventory dicts — Python `dict.__eq__`, which
ignores insertion order. -/
def invEquiv (a b : List (String × InventoryItem)) : Prop :=
  ∀ k, dget a k = dget b k

/-- Python `Location.__eq__`: equal ids and equal inventory dicts. -/
def locEquiv (a b : Location) : Prop :=
  a.location_id = b.location_id ∧ invEquiv a.inventory b.inventory

/-- The relation `locEquiv` lifted to optional lookup results. -/
def optLocEquiv : Option Location → Option Location → Prop
  | none, none => True
  | some a, some b => locEquiv a b
  | _, _ => False

/-- Python equality of two warehouse states (order-insensitive dict
equality all the way down). -/
def locsEquiv (a b : List (String × Location)) : Prop :=
  ∀ k, optLocEquiv (dget a k) (dget b k)

end Warehouse

namespace Warehouse

theorem dget_dset {α : Type} (l : List (String × α)) (k k' : String) (v : α) :
    dget (dset l k v) k' = if k = k' then some v else dget l k' := by
  induction l with
  | nil => simp [dset, dget]
  | cons p rest ih =>
      obtain ⟨pk, pv⟩ := p
      by_cases h : pk = k
      · subst h
        simp only [dset, if_pos rfl, dget]
        by_cases h' : pk = k' <;> simp [h']
      · simp [dset, h, dget]
        by_cases h' : pk = k'
        · subst h'
          simp [Ne.symm h]
        · simp [h', ih]

theorem dget_derase_ne {α : Type} (l : List (String × α)) (k k' : String)
    (h : k ≠ k') : dget (derase l k) k' = dget l k' := by
  induction l with
  | nil => simp [derase, dget]
  | cons p rest ih =>
      obtain ⟨pk, pv⟩ := p
      by_cases hpk : pk = k
      · subst hpk
        simp [derase, dget, h]
      · simp [derase, hpk, dget]
        by_cases h' : pk = k' <;> simp [h', ih]

theorem dget_derase_self {α : Type} (l : List (String × α)) (k : String)
    (h : nodupKeys l = true) : dget (derase l k) k = none := by
  induction l with
  | nil => simp [derase, dget]
  | cons p rest ih =>
      obtain ⟨pk, pv⟩ := p
      simp [nodupKeys, dmem] at h
      by_cases hpk : pk = k
      · subst hpk
        simpa [derase, dget, Option.isNone_iff_eq_none] using h.1
      · simp [derase, hpk, dget, ih h.2]

theorem dmem_eq_isSome {α : Type} (l : List (String × α)) (k : String) :
    dmem l k = (dget l k).isSome := rfl

theorem nodupKeys_dset {α : Type} (l : List (String × α)) (k : String) (v : α)
    (h : nodupKeys l = true) : nodupKeys (dset l k v) = true := by
  induction l with
  | nil => simp [dset, nodupKeys, dmem, dget]
  | cons p rest ih =>
      obtain ⟨pk, pv⟩ := p
      simp [nodupKeys, dmem] at h
      by_cases hpk : pk = k
      · subst hpk
        simp [dset, nodupKeys, dmem]
        exact ⟨by simpa [Option.isNone_iff_eq_none] using h.1, h.2⟩
      · simp [dset, hpk, nodupKeys, dmem, dget_dset, Ne.symm hpk]
        refine ⟨by simpa [dmem] using h.1, ih h.2⟩

theorem nodupKeys_derase {α : Type} (l : List (String × α)) (k : String)
    (h : nodupKeys l = true) : nodupKeys (derase l k) = true := by
  induction l with
  | nil => simp [derase, nodupKeys]
  | cons p rest ih =>
      obtain ⟨pk, pv⟩ := p
      simp [nodupKeys, dmem] at h
      by_cases hpk : pk = k
      · subst hpk
        simp [derase]
        exact h.2
      · simp [derase, hpk, nodupKeys, dmem]
        constructor
        · by_cases hk : k = pk
          · exact absurd hk.symm hpk
          · rw [dget_derase_ne rest k pk hk]
            simpa [dmem] using h.1
        · exact ih h.2

theorem dget_mem {α : Type} {l : List (String × α)} {k : String} {v : α}
    (h : dget l k = some v) : (k, v) ∈ l := by
  induction l with
  | nil => simp [dget] at h
  | cons p rest ih =>
      obtain ⟨pk, pv⟩ := p
      by_cases hpk : pk = k
      · subst hpk
        simp [dget] at h
        simp [h]
      · simp [dget, hpk] at h
        simp [ih h]

theorem all_dset {α : Type} (l : List (String × α)) (k : String) (v : α)
    (P : String × α → Bool) (h : l.all P = true) (hv : P (k, v) = true) :
    (dset l k v).all P = true := by
  induction l with
  | nil => simp [dset, List.all_cons, hv]
  | cons p rest ih =>
      obtain ⟨pk, pv⟩ := p
      rw [List.all_cons, Bool.and_eq_true] at h
      by_cases hpk : pk = k
      · subst hpk
        simp [dset, List.all_cons, hv, h.2]
      · simp [dset, hpk, List.all_cons, h.1, ih h.2]

theorem all_derase {α : Type} (l : List (String × α)) (k : String)
    (P : String × α → Bool) (h : l.all P = true) :
    (derase l k).all P = true := by
  induction l with
  | nil => simp [derase]
  | cons p rest ih =>
      obtain ⟨pk, pv⟩ := p
      rw [List.all_cons, Bool.and_eq_true] at h
      by_cases hpk : pk = k
      · subst hpk
        simp [derase, h.2]
      · simp [derase, hpk, List.all_cons, h.1, ih h.2]

end Warehouse

namespace Warehouse

theorem validId_ne_empty {s : String} (h : validId s = true) : s ≠ "" := by
  intro he
  subst he
  simp [validId, List.filter] at h

theorem mkInventoryItem_ok {iid : String} {q : Int}
    (hid : validId iid = true) (hq : 0 < q) :
    mkInventoryItem iid q = .ok { item_id := iid, quantity := q } := by
  simp [mkInventoryItem, validId_ne_empty hid, hid, not_le.mpr hq]

theorem mkInventoryItem_ok_inv {iid : String} {q : Int} {it : InventoryItem}
    (h : mkInventoryItem iid q = .ok it) :
    it = { item_id := iid, quantity := q } ∧ validId iid = true ∧ 0 < q := by
  by_cases he : iid = ""
  · simp [mkInventoryItem, he] at h
  · by_cases hid : validId iid = true
    · by_cases hq : q ≤ 0
      · simp [mkInventoryItem, he, hid, hq] at h
      · simp [mkInventoryItem, he, hid, hq] at h
        exact ⟨h.symm, hid, lt_of_not_le hq⟩
    · simp [mkInventoryItem, he, hid] at h

theorem mkLocation_ok {lid : String} (hid : validId lid = true) :
    mkLocation lid = .ok { location_id := lid, inventory := [] } := by
  simp [mkLocation, validId_ne_empty hid, hid]

theorem WFInventory_nodup {inv : List (String × InventoryItem)}
    (h : WFInventory inv = true) : nodupKeys inv = true := by
  rw [WFInventory, Bool.and_eq_true] at h
  exact h.1

theorem WFInventory_lookup {inv : List (String × InventoryItem)}
    {k : String} {it : InventoryItem}
    (h : WFInventory inv = true) (hk : dget inv k = some it) :
    it.item_id = k ∧ validId k = true ∧ 0 < it.quantity := by
  rw [WFInventory, Bool.and_eq_true] at h
  have hm := dget_mem hk
  have := List.all_eq_true.mp h.2 _ hm
  simp at this
  exact ⟨this.1.1, this.1.2, this.2⟩

theorem WFLocations_nodup {locations : List (String × Location)}
    (h : WFLocations locations = true) : nodupKeys locations = true := by
  rw [WFLocations, Bool.and_eq_true] at h
  exact h.1

theorem WFLocations_lookup {locations : List (String × Location)}
    {k : String} {loc : Location}
    (h : WFLocations locations = true) (hk : dget locations k = some loc) :
    loc.location_id = k ∧ validId k = true ∧ WFInventory loc.inventory = true := by
  rw [WFLocations, Bool.and_eq_true] at h
  have hm := dget_mem hk
  have := List.all_eq_true.mp h.2 _ hm
  simp at this
  exact ⟨this.1.1, this.1.2, this.2⟩

end Warehouse

namespace Warehouse

theorem mkLocation_ok_inv {lid : String} {loc : Location}
    (h : mkLocation lid = .ok loc) :
    loc = { location_id := lid, inventory := [] } ∧ validId lid = true := by
  by_cases he : lid = ""
  · simp [mkLocation, he] at h
  · by_cases hid : validId lid = true
    · simp [mkLocation, he, hid] at h
      exact ⟨h.symm, hid⟩
    · simp [mkLocation, he, hid] at h

theorem saveState_eq (lockFail : Bool) (st : ServiceState)
    (locations' : List (String × Location)) :
    WarehouseService.saveState lockFail st locations' =
      if lockFail then
        (some (.storageError "Failed to acquire file lock"),
         { locations := locations', file := st.file })
      else
        (none, { locations := locations',
                 file := .content (encodeState locations') }) := by
  cases lockFail <;> rfl

theorem WFLocations_dset {locations : List (String × Location)}
    {k : String} {loc : Location} (h : WFLocations locations = true)
    (hloc : loc.location_id = k) (hk : validId k = true)
    (hWF : WFInventory loc.inventory = true) :
    WFLocations (dset locations k loc) = true := by
  rw [WFLocations, Bool.and_eq_true] at h ⊢
  refine ⟨nodupKeys_dset _ _ _ h.1, all_dset _ _ _ _ h.2 ?_⟩
  simp [hloc, hk, hWF]

theorem WFLocations_derase {locations : List (String × Location)}
    {k : String} (h : WFLocations locations = true) :
    WFLocations (derase locations k) = true := by
  rw [WFLocations, Bool.and_eq_true] at h ⊢
  exact ⟨nodupKeys_derase _ _ h.1, all_derase _ _ _ h.2⟩

theorem add_item_WF {loc : Location} {iid : String} {q : Int} {loc' : Location}
    (hWF : WFInventory loc.inventory = true) (hq : 0 < q)
    (h : loc.add_item iid q = .ok loc') :
    WFInventory loc'.inventory = true ∧ loc'.location_id = loc.location_id := by
  rw [WFInventory, Bool.and_eq_true] at hWF
  cases hg : dget loc.inventory iid with
  | some item =>
      obtain ⟨hfid, hvid, hpos⟩ := WFInventory_lookup (by rw [WFInventory, Bool.and_eq_true]; exact hWF) hg
      simp [Location.add_item, hg] at h
      subst h
      refine ⟨?_, rfl⟩
      rw [WFInventory, Bool.and_eq_true]
      refine ⟨nodupKeys_dset _ _ _ hWF.1, all_dset _ _ _ _ hWF.2 ?_⟩
      simp [hfid, hvid]
      omega
  | none =>
      simp [Location.add_item, hg] at h
      cases hmk : mkInventoryItem iid q with
      | error e => simp [hmk] at h
      | ok item =>
          obtain ⟨hit, hvid, hpos⟩ := mkInventoryItem_ok_inv hmk
          simp [hmk] at h
          subst h
          refine ⟨?_, rfl⟩
          rw [WFInventory, Bool.and_eq_true]
          refine ⟨nodupKeys_dset _ _ _ hWF.1, all_dset _ _ _ _ hWF.2 ?_⟩
          simp [hit, hvid, hpos]

theorem remove_item_WF {loc : Location} {iid : String} {q : Int} {loc' : Location}
    (hWF : WFInventory loc.inventory = true)
    (h : loc.remove_item iid q = .ok loc') :
    WFInventory loc'.inventory = true ∧ loc'.location_id = loc.location_id := by
  rw [WFInventory, Bool.and_eq_true] at hWF
  cases hg : dget loc.inventory iid with
  | none => simp [Location.remove_item, hg] at h
  | some item =>
      obtain ⟨hfid, hvid, hpos⟩ := WFInventory_lookup (by rw [WFInventory, Bool.and_eq_true]; exact hWF) hg
      by_cases hlt : item.quantity < q
      · simp [Location.remove_item, hg, hlt] at h
      · by_cases hz : item.quantity - q = 0
        · simp [Location.remove_item, hg, hlt, hz] at h
          subst h
          refine ⟨?_, rfl⟩
          rw [WFInventory, Bool.and_eq_true]
          exact ⟨nodupKeys_derase _ _ hWF.1, all_derase _ _ _ hWF.2⟩
        · simp [Location.remove_item, hg, hlt, hz] at h
          subst h
          refine ⟨?_, rfl⟩
          rw [WFInventory, Bool.and_eq_true]
          refine ⟨nodupKeys_dset _ _ _ hWF.1, all_dset _ _ _ _ hWF.2 ?_⟩
          simp [hfid, hvid]
          omega

end Warehouse

namespace Warehouse

theorem saveState_locations (lockFail : Bool) (st : ServiceState)
    (locations' : List (String × Location)) :
    (WarehouseService.saveState lockFail st locations').2.locations = locations' := by
  cases lockFail <;> rfl

theorem register_WF (lockFail : Bool) (st : ServiceState) (lid : String)
    (h : WFLocations st.locations = true) :
    WFLocations (WarehouseService.register_location lockFail st lid).2.locations
      = true := by
  unfold WarehouseService.register_location
  by_cases hm : dmem st.locations lid
  · simpa [hm] using h
  · cases hmk : mkLocation lid with
    | error e => simpa [hm, hmk] using h
    | ok loc =>
        obtain ⟨hl, hv⟩ := mkLocation_ok_inv hmk
        simp [hm, hmk, saveState_locations]
        refine WFLocations_dset h (by rw [hl]) hv ?_
        rw [hl]
        rfl
end Warehouse

namespace Warehouse

theorem unregister_WF (lockFail : Bool) (st : ServiceState) (lid : String)
    (h : WFLocations st.locations = true) :
    WFLocations (WarehouseService.unregister_location lockFail st lid).2.locations
      = true := by
  unfold WarehouseService.unregister_location
  cases hg : dget st.locations lid with
  | none => simpa using h
  | some loc =>
      by_cases hi : loc.has_inventory
      · simpa [hi] using h
      · simp [hi, saveState_locations]
        exact WFLocations_derase h

theorem increment_WF (lockFail : Bool) (st : ServiceState) (lid iid : String)
    (q : Int) (h : WFLocations st.locations = true) :
    WFLocations
      (WarehouseService.increment_inventory lockFail st lid iid q).2.locations
      = true := by
  unfold WarehouseService.increment_inventory
  cases hg : dget st.locations lid with
  | none => simpa using h
  | some loc =>
      by_cases hq : q ≤ 0
      · simpa [hq] using h
      · cases ha : loc.add_item iid q with
        | error e => simpa [hq, ha] using h
        | ok loc' =>
            simp [hq, ha, saveState_locations]
            obtain ⟨hli, hvi, hwi⟩ := WFLocations_lookup h hg
            obtain ⟨hWFi, hlid⟩ := add_item_WF hwi (lt_of_not_le hq) ha
            exact WFLocations_dset h (by rw [hlid, hli]) hvi hWFi

theorem decrement_WF (lockFail : Bool) (st : ServiceState) (lid iid : String)
    (q : Int) (h : WFLocations st.locations = true) :
    WFLocations
      (WarehouseService.decrement_inventory lockFail st lid iid q).2.locations
      = true := by
  unfold WarehouseService.decrement_inventory
  cases hg : dget st.locations lid with
  | none => simpa using h
  | some loc =>
      by_cases hq : q ≤ 0
      · simpa [hq] using h
      · by_cases hm : dmem loc.inventory iid
        · by_cases hlt : loc.get_item_quantity iid < q
          · simpa [hq, hm, hlt] using h
          · cases hr : loc.remove_item iid q with
            | error e =>
                cases e <;> simpa [hq, hm, hlt, hr] using h
            | ok loc' =>
                simp [hq, hm, hlt, hr, saveState_locations]
                obtain ⟨hli, hvi, hwi⟩ := WFLocations_lookup h hg
                obtain ⟨hWFi, hlid⟩ := remove_item_WF hwi hr
                exact WFLocations_dset h (by rw [hlid, hli]) hvi hWFi
        · simpa [hq, hm] using h

theorem transfer_WF (lockFail : Bool) (st : ServiceState)
    (src dst iid : String) (q : Int) (h : WFLocations st.locations = true) :
    WFLocations
      (WarehouseService.transfer_inventory lockFail st src dst iid q).2.locations
      = true := by
  unfold WarehouseService.transfer_inventory
  cases hg : dget st.locations src with
  | none => simpa using h
  | some src_location =>
      by_cases hd : dmem st.locations dst
      · by_cases hq : q ≤ 0
        · simpa [hd, hq] using h
        · by_cases hm : dmem src_location.inventory iid
          · by_cases hlt : src_location.get_item_quantity iid < q
            · simpa [hd, hq, hm, hlt] using h
            · cases hr : src_location.remove_item iid q with
              | error e => simpa [hd, hq, hm, hlt, hr] using h
              | ok src_location' =>
                  obtain ⟨hli, hvi, hwi⟩ := WFLocations_lookup h hg
                  obtain ⟨hWFs, hslid⟩ := remove_item_WF hwi hr
                  have h1 : WFLocations (dset st.locations src src_location') = true :=
                    WFLocations_dset h (by rw [hslid, hli]) hvi hWFs
                  cases hgd : dget (dset st.locations src src_location') dst with
                  | none => simpa [hd, hq, hm, hlt, hr, hgd] using h1
                  | some dest_location =>
                      cases hadd : dest_location.add_item iid q with
                      | error e => simpa [hd, hq, hm, hlt, hr, hgd, hadd] using h1
                      | ok dest_location' =>
                          simp [hd, hq, hm, hlt, hr, hgd, hadd, saveState_locations]
                          obtain ⟨hdli, hdvi, hdwi⟩ := WFLocations_lookup h1 hgd
                          obtain ⟨hWFd, hdlid⟩ := add_item_WF hdwi (lt_of_not_le hq) hadd
                          exact WFLocations_dset h1 (by rw [hdlid, hdli]) hdvi hWFd
          · simpa [hd, hq, hm] using h
      · simpa [hd] using h

theorem applyOp_WF (lockFail : Bool) (op : Op) (st : ServiceState)
    (h : WFLocations st.locations = true) :
    WFLocations (applyOp lockFail op st).2.locations = true := by
  cases op with
  | register lid => exact register_WF lockFail st lid h
  | unregister lid => exact unregister_WF lockFail st lid h
  | increment lid iid q => exact increment_WF lockFail st lid iid q h
  | decrement lid iid q => exact decrement_WF lockFail st lid iid q h
  | transfer src dst iid q => exact transfer_WF lockFail st src dst iid q h

theorem Reachable_WF {st : ServiceState} (h : Reachable st) :
    WFLocations st.locations = true := by
  induction h with
  | init => rfl
  | step lockFail op hr ih => exact applyOp_WF lockFail op _ ih

end Warehouse

namespace Warehouse

/-- C9: when the storage file is missing or has size zero, `load` returns
the empty state (no locations) and raises no error. -/
theorem load_missing_or_empty_returns_empty_state :
    FileStorage.load .missing = .ok ([] : List (String × Location)) ∧
    FileStorage.load .empty = .ok ([] : List (String × Location)) :=
  ⟨rfl, rfl⟩

/-- C4: in every state reachable from the initial empty state by the
public mutating operations, every inventory record stored in any
location has strictly positive quantity — no record with quantity 0
survives any operation. -/
theorem reachable_state_quantities_positive {st : ServiceState}
    (h : Reachable st) :
    ∀ lid loc, dget st.locations lid = some loc →
      ∀ iid item, dget loc.inventory iid = some item → 0 < item.quantity := by
  intro lid loc hloc iid item hitem
  exact (WFInventory_lookup (WFLocations_lookup (Reachable_WF h) hloc).2.2 hitem).2.2

theorem reachable_state_quantities_positive_witness :
    0 < (InventoryItem.mk "IA" 3).quantity :=
  reachable_state_quantities_positive
    (Reachable.step false (.increment "L1" "IA" 3)
      (Reachable.step false (.register "L1") Reachable.init))
    "L1" (Location.mk "L1" [("IA", InventoryItem.mk "IA" 3)]) (by decide)
    "IA" (InventoryItem.mk "IA" 3) (by decide)

/-- C5: when location `lid` holds item `iid` with quantity exactly `q`,
decrementing by `q` succeeds and leaves the record absent (not present
with quantity 0). -/
theorem decrement_exact_removes_record (st : ServiceState) (lid iid : String)
    (q : Int) (loc : Location) (item : InventoryItem)
    (hWF : WFLocations st.locations = true)
    (hloc : dget st.locations lid = some loc)
    (hitem : dget loc.inventory iid = some item)
    (hq : item.quantity = q) :
    (WarehouseService.decrement_inventory false st lid iid q).1 = none ∧
    itemAt (WarehouseService.decrement_inventory false st lid iid q).2 lid iid
      = none := by
  obtain ⟨hli, hvi, hwi⟩ := WFLocations_lookup hWF hloc
  obtain ⟨hfid, hvid, hpos⟩ := WFInventory_lookup hwi hitem
  have hq0 : ¬ q ≤ 0 := by omega
  have hm : dmem loc.inventory iid = true := by simp [dmem, hitem]
  have hav : loc.get_item_quantity iid = q := by
    simp [Location.get_item_quantity, hitem, hq]
  have hlt : ¬ loc.get_item_quantity iid < q := by omega
  have hrm : loc.remove_item iid q
      = .ok { loc with inventory := derase loc.inventory iid } := by
    simp [Location.remove_item, hitem, ← hq]
  simp [WarehouseService.decrement_inventory, hloc, hq0, hm, hlt, hrm,
    saveState_eq, itemAt, dget_dset, dget_derase_self _ _ (WFInventory_nodup hwi)]

theorem decrement_exact_removes_record_witness :
    (WarehouseService.decrement_inventory false sampleState "A" "i1" 5).1 = none ∧
    itemAt (WarehouseService.decrement_inventory false sampleState "A" "i1" 5).2
      "A" "i1" = none :=
  decrement_exact_removes_record sampleState "A" "i1" 5
    sampleLocA { item_id := "i1", quantity := 5 }
    (by decide) (by decide) (by decide) (by decide)

/-- C6: decrementing more than the available quantity fails with
`InsufficientQuantity` reporting the requested quantity and the true
available amount, and the whole service state is unchanged. -/
theorem decrement_insufficient_reports_available (lockFail : Bool)
    (st : ServiceState) (lid iid : String) (q : Int)
    (loc : Location) (item : InventoryItem)
    (hloc : dget st.locations lid = some loc)
    (hitem : dget loc.inventory iid = some item)
    (hpos : 0 < item.quantity)
    (hgt : item.quantity < q) :
    WarehouseService.decrement_inventory lockFail st lid iid q
      = (some (.insufficientQuantity iid lid q item.quantity), st) := by
  have hq0 : ¬ q ≤ 0 := by omega
  have hm : dmem loc.inventory iid = true := by simp [dmem, hitem]
  have hav : loc.get_item_quantity iid = item.quantity := by
    simp [Location.get_item_quantity, hitem]
  simp [WarehouseService.decrement_inventory, hloc, hq0, hm, hav, hgt]

theorem decrement_insufficient_reports_available_witness :
    WarehouseService.decrement_inventory false sampleState "A" "i1" 9
      = (some (.insufficientQuantity "i1" "A" 9 5), sampleState) :=
  decrement_insufficient_reports_available false sampleState "A" "i1" 9
    sampleLocA { item_id := "i1", quantity := 5 }
    (by decide) (by decide) (by decide) (by decide)

end Warehouse

namespace Warehouse

theorem increment_ok_quantity {st : ServiceState} {lid iid : String} {q : Int}
    (h : (WarehouseService.increment_inventory false st lid iid q).1 = none) :
    quantityAt (WarehouseService.increment_inventory false st lid iid q).2 lid iid
      = quantityAt st lid iid + q := by
  cases hg : dget st.locations lid with
  | none => simp [WarehouseService.increment_inventory, hg] at h
  | some loc =>
      by_cases hq : q ≤ 0
      · simp [WarehouseService.increment_inventory, hg, hq] at h
      · cases hinv : dget loc.inventory iid with
        | some item =>
            have ha : loc.add_item iid q = .ok (Location.mk loc.location_id (dset loc.inventory iid (InventoryItem.mk item.item_id (item.quantity + q)))) := by
              simp [Location.add_item, hinv]
            simp [WarehouseService.increment_inventory, hg, hq, ha, saveState_eq,
              quantityAt, dget_dset, Location.get_item_quantity, hinv]
        | none =>
            cases hmk : mkInventoryItem iid q with
            | error e =>
                have ha : loc.add_item iid q = .error e := by
                  simp [Location.add_item, hinv, hmk]
                simp [WarehouseService.increment_inventory, hg, hq, ha] at h
            | ok item =>
                obtain ⟨hit, hvid, hposq⟩ := mkInventoryItem_ok_inv hmk
                have ha : loc.add_item iid q = .ok (Location.mk loc.location_id (dset loc.inventory iid item)) := by
                  simp [Location.add_item, hinv, hmk]
                simp [WarehouseService.increment_inventory, hg, hq, ha, saveState_eq,
                  quantityAt, dget_dset, Location.get_item_quantity, hinv, hit]

theorem runIncrements_ok_quantity {lid iid : String} {qs : List Int}
    {st : ServiceState} (h : (runIncrements st lid iid qs).1 = none) :
    quantityAt (runIncrements st lid iid qs).2 lid iid
      = quantityAt st lid iid + qs.sum := by
  induction qs generalizing st with
  | nil => simp [runIncrements]
  | cons q qs ih =>
      cases hstep : WarehouseService.increment_inventory false st lid iid q with
      | mk err st2 =>
          cases err with
          | some e =>
              rw [runIncrements, hstep] at h
              simp at h
          | none =>
              have h1 : (WarehouseService.increment_inventory false st lid iid q).1 = none := by
                rw [hstep]
              have h2 : (WarehouseService.increment_inventory false st lid iid q).2 = st2 := by
                rw [hstep]
              have hrest : (runIncrements st2 lid iid qs).1 = none := by
                rw [runIncrements, hstep] at h
                exact h
              have hq2 := increment_ok_quantity h1
              rw [h2] at hq2
              rw [runIncrements, hstep]
              rw [ih hrest, hq2]
              simp [List.sum_cons]
              ring

/-- C7: starting from a state where item `iid` is absent from location
`lid`, any sequence of successful positive increments of that item at
that location leaves its quantity equal to the sum of the increments. -/
theorem increments_sum_to_total (st : ServiceState) (lid iid : String)
    (qs : List Int)
    (hmem : dmem st.locations lid = true)
    (habs : itemAt st lid iid = none)
    (hpos : ∀ q ∈ qs, 0 < q)
    (hok : (runIncrements st lid iid qs).1 = none) :
    quantityAt (runIncrements st lid iid qs).2 lid iid = qs.sum := by
  have h0 : quantityAt st lid iid = 0 := by
    unfold quantityAt
    unfold itemAt at habs
    cases hg : dget st.locations lid with
    | none => rfl
    | some loc =>
        rw [hg] at habs
        simp at habs
        simp [Location.get_item_quantity, habs]
  rw [runIncrements_ok_quantity hok, h0, zero_add]

theorem increments_sum_to_total_witness :
    quantityAt (runIncrements sampleState2 "B" "x9" [1, 2, 3]).2 "B" "x9"
      = ([1, 2, 3] : List Int).sum :=
  increments_sum_to_total sampleState2 "B" "x9" [1, 2, 3]
    (by decide) (by decide) (by decide) (by decide)

end Warehouse

namespace Warehouse

theorem dget_isSome_of_mem_fst {α : Type} {l : List (String × α)} {k : String}
    (h : k ∈ l.map Prod.fst) : (dget l k).isSome = true := by
  induction l with
  | nil => simp at h
  | cons p rest ih =>
      obtain ⟨pk, pv⟩ := p
      by_cases hpk : pk = k
      · simp [dget, hpk]
      · simp [dget, hpk]
        simp [hpk] at h
        exact ih (by simpa using h.resolve_left (fun hk => hpk hk.symm))

theorem nodupKeys_fst_nodup {α : Type} {l : List (String × α)}
    (h : nodupKeys l = true) : (l.map Prod.fst).Nodup := by
  induction l with
  | nil => simp
  | cons p rest ih =>
      obtain ⟨pk, pv⟩ := p
      rw [nodupKeys, Bool.and_eq_true] at h
      simp only [List.map_cons, List.nodup_cons]
      refine ⟨fun hmem => ?_, ih h.2⟩
      have := dget_isSome_of_mem_fst hmem
      rw [← dmem_eq_isSome] at this
      simp [this] at h

theorem WFInventory_ids_eq_keys {inv : List (String × InventoryItem)}
    (h : WFInventory inv = true) :
    inv.map (fun p => p.2.item_id) = inv.map Prod.fst := by
  rw [WFInventory, Bool.and_eq_true] at h
  apply List.map_congr_left
  intro p hp
  have := List.all_eq_true.mp h.2 _ hp
  simp at this
  exact this.1.1

/-- C8: for a registered location, `observe_inventory` returns exactly
the location's inventory records, strictly ascending by `item_id`; for
an unregistered location it fails with `LocationNotFound`. -/
theorem observe_inventory_sorted (st : ServiceState) (lid : String)
    (hWF : WFLocations st.locations = true) :
    (dget st.locations lid = none →
      WarehouseService.observe_inventory st lid
        = .error (.locationNotFound lid)) ∧
    (∀ loc, dget st.locations lid = some loc →
      WarehouseService.observe_inventory st lid = .ok loc.get_sorted_items ∧
      loc.get_sorted_items.Perm (loc.inventory.map Prod.snd) ∧
      loc.get_sorted_items.Pairwise (fun a b => a.item_id < b.item_id)) := by
  constructor
  · intro h
    simp [WarehouseService.observe_inventory, h]
  · intro loc hloc
    have hwi := (WFLocations_lookup hWF hloc).2.2
    have hperm : loc.get_sorted_items.Perm (loc.inventory.map Prod.snd) :=
      List.mergeSort_perm _ _
    refine ⟨by simp [WarehouseService.observe_inventory, hloc], hperm, ?_⟩
    have hle : loc.get_sorted_items.Pairwise
        (fun a b : InventoryItem => a.item_id ≤ b.item_id) := by
      have := @List.sorted_mergeSort InventoryItem
        (fun a b : InventoryItem => decide (a.item_id ≤ b.item_id))
        (fun a b c hab hbc => by
          simp only [decide_eq_true_eq] at *
          exact le_trans hab hbc)
        (fun a b => by
          simp only [Bool.or_eq_true, decide_eq_true_eq]
          exact le_total a.item_id b.item_id)
        (loc.inventory.map Prod.snd)
      exact this.imp (fun h => by simpa using h)
    have hids : (loc.get_sorted_items.map (fun it => it.item_id)).Nodup := by
      have hkeys : (loc.inventory.map Prod.fst).Nodup :=
        nodupKeys_fst_nodup (WFInventory_nodup hwi)
      have hvals : ((loc.inventory.map Prod.snd).map (fun it => it.item_id)).Nodup := by
        rw [List.map_map]
        have : (loc.inventory.map (fun p => p.2.item_id)).Nodup := by
          rw [WFInventory_ids_eq_keys hwi]
          exact hkeys
        simpa [Function.comp] using this
      exact ((hperm.map (fun it => it.item_id)).nodup_iff).mpr hvals
    have hne : loc.get_sorted_items.Pairwise
        (fun a b : InventoryItem => a.item_id ≠ b.item_id) := by
      rw [List.Nodup, List.pairwise_map] at hids
      exact hids
    exact (hle.and hne).imp (fun h => lt_of_le_of_ne h.1 h.2)

end Warehouse

namespace Warehouse

theorem observe_inventory_sorted_witness :
    WarehouseService.observe_inventory sampleState "A"
      = .ok sampleLocA.get_sorted_items ∧
    sampleLocA.get_sorted_items.Perm (sampleLocA.inventory.map Prod.snd) ∧
    sampleLocA.get_sorted_items.Pairwise (fun a b => a.item_id < b.item_id) :=
  (observe_inventory_sorted sampleState "A" (by decide)).2 sampleLocA (by decide)

theorem item_roundtrip {it : InventoryItem} (hv : validId it.item_id = true)
    (hq : 0 < it.quantity) :
    InventoryItem.from_dict it.to_dict = .ok it := by
  have h1 : InventoryItem.from_dict it.to_dict
      = mkInventoryItem it.item_id it.quantity := rfl
  rw [h1, mkInventoryItem_ok hv hq]

theorem WFInventory_tail {p : String × InventoryItem}
    {rest : List (String × InventoryItem)}
    (h : WFInventory (p :: rest) = true) : WFInventory rest = true := by
  rw [WFInventory, Bool.and_eq_true] at h ⊢
  rw [nodupKeys, Bool.and_eq_true] at *
  refine ⟨?_, ?_⟩
  · rcases p with ⟨pk, pv⟩
    exact h.1.2
  · rw [List.all_cons, Bool.and_eq_true] at *
    exact h.2.2

theorem inv_roundtrip {inv : List (String × InventoryItem)}
    (h : WFInventory inv = true) :
    invFromFields (inv.map (fun p => (p.1, p.2.to_dict))) = .ok inv := by
  induction inv with
  | nil => rfl
  | cons p rest ih =>
      obtain ⟨pk, pv⟩ := p
      have hme : (pk, pv) ∈ (pk, pv) :: rest := by simp
      have h2 := h
      rw [WFInventory, Bool.and_eq_true] at h2
      have hp := List.all_eq_true.mp h2.2 _ hme
      simp at hp
      have hvi : validId pv.item_id = true := by rw [hp.1.1]; exact hp.1.2
      simp [List.map_cons, invFromFields, item_roundtrip hvi hp.2,
        ih (WFInventory_tail h)]

theorem location_roundtrip {loc : Location}
    (hv : validId loc.location_id = true)
    (hWF : WFInventory loc.inventory = true) :
    Location.from_dict loc.to_dict = .ok loc := by
  have h1 : Location.from_dict loc.to_dict
      = (match mkLocation loc.location_id with
         | .error e => .error e
         | .ok l0 =>
            match invFromFields (loc.inventory.map (fun p => (p.1, p.2.to_dict))) with
            | .error e => .error e
            | .ok inv => .ok { l0 with inventory := inv }) := rfl
  rw [h1, mkLocation_ok hv, inv_roundtrip hWF]

theorem WFLocations_tail {p : String × Location}
    {rest : List (String × Location)}
    (h : WFLocations (p :: rest) = true) : WFLocations rest = true := by
  rw [WFLocations, Bool.and_eq_true] at h ⊢
  rw [nodupKeys, Bool.and_eq_true] at *
  refine ⟨?_, ?_⟩
  · rcases p with ⟨pk, pv⟩
    exact h.1.2
  · rw [List.all_cons, Bool.and_eq_true] at *
    exact h.2.2

theorem locations_roundtrip {locations : List (String × Location)}
    (h : WFLocations locations = true) :
    decodeLocations (locations.map (fun p => (p.1, p.2.to_dict)))
      = .ok locations := by
  induction locations with
  | nil => rfl
  | cons p rest ih =>
      obtain ⟨pk, pv⟩ := p
      have hme : (pk, pv) ∈ (pk, pv) :: rest := by simp
      have h2 := h
      rw [WFLocations, Bool.and_eq_true] at h2
      have hp := List.all_eq_true.mp h2.2 _ hme
      simp at hp
      have hv : validId pv.location_id = true := by rw [hp.1.1]; exact hp.1.2
      simp [List.map_cons, decodeLocations, location_roundtrip hv hp.2,
        ih (WFLocations_tail h)]

/-- C3: saving any well-formed warehouse state and loading the resulting
snapshot yields the state back unchanged (same location ids, same item
ids, same quantities). -/
theorem save_load_roundtrip (locations : List (String × Location))
    (hWF : WFLocations locations = true) (f : FileContent)
    (hsave : FileStorage.save false locations = .ok f) :
    FileStorage.load f = .ok locations := by
  have hf : f = .content (encodeState locations) := by
    simpa [FileStorage.save] using hsave.symm
  subst hf
  have h1 : FileStorage.load (.content (encodeState locations))
      = (match decodeLocations (locations.map (fun p => (p.1, p.2.to_dict))) with
         | .error _ => .error (.storageError "Unexpected error loading state")
         | .ok locs => .ok locs) := rfl
  rw [h1, locations_roundtrip hWF]

theorem save_load_roundtrip_witness :
    FileStorage.load (.content (encodeState sampleState2.locations))
      = .ok sampleState2.locations :=
  save_load_roundtrip sampleState2.locations (by decide)
    (.content (encodeState sampleState2.locations)) rfl

end Warehouse

namespace Warehouse

theorem saveState_false (st : ServiceState)
    (locations' : List (String × Location)) :
    WarehouseService.saveState false st locations'
      = (none, { locations := locations',
                 file := .content (encodeState locations') }) := rfl

theorem optLocEquiv_refl (o : Option Location) : optLocEquiv o o := by
  cases o with
  | none => trivial
  | some loc => exact ⟨rfl, fun k => rfl⟩

/-- C10: transferring `q` units from a location to itself (with `q` at
most the stored quantity) succeeds, and the warehouse state is unchanged
up to Python dict equality — also when `q` equals the stored quantity,
where the removal deletes the record and the addition recreates it on
the same aliased location object. -/
theorem self_transfer_is_noop (st : ServiceState) (lid iid : String) (q : Int)
    (loc : Location) (item : InventoryItem)
    (hWF : WFLocations st.locations = true)
    (hloc : dget st.locations lid = some loc)
    (hitem : dget loc.inventory iid = some item)
    (hq : 0 < q) (hle : q ≤ item.quantity) :
    (WarehouseService.transfer_inventory false st lid lid iid q).1 = none ∧
    locsEquiv
      (WarehouseService.transfer_inventory false st lid lid iid q).2.locations
      st.locations := by
  obtain ⟨hli, hvl, hwi⟩ := WFLocations_lookup hWF hloc
  obtain ⟨hfid, hvid, hpos⟩ := WFInventory_lookup hwi hitem
  have hnd := WFInventory_nodup hwi
  have hd : dmem st.locations lid = true := by simp [dmem, hloc]
  have hq0 : ¬ q ≤ 0 := by omega
  have hm : dmem loc.inventory iid = true := by simp [dmem, hitem]
  have hlt : ¬ loc.get_item_quantity iid < q := by
    simp [Location.get_item_quantity, hitem]
    omega
  have hnlt : ¬ item.quantity < q := by omega
  by_cases hz : item.quantity - q = 0
  · have hrm : loc.remove_item iid q
        = .ok (Location.mk loc.location_id (derase loc.inventory iid)) := by
      simp [Location.remove_item, hitem, hnlt, hz]
    have hg1 : dget (dset st.locations lid
        (Location.mk loc.location_id (derase loc.inventory iid))) lid
        = some (Location.mk loc.location_id (derase loc.inventory iid)) := by
      simp [dget_dset]
    have hinv1 : dget (derase loc.inventory iid) iid = none :=
      dget_derase_self _ _ hnd
    have hadd : (Location.mk loc.location_id (derase loc.inventory iid)).add_item iid q
        = .ok (Location.mk loc.location_id
            (dset (derase loc.inventory iid) iid (InventoryItem.mk iid q))) := by
      simp [Location.add_item, hinv1, mkInventoryItem_ok hvid hq]
    have hred : WarehouseService.transfer_inventory false st lid lid iid q
        = WarehouseService.saveState false st
            (dset (dset st.locations lid (Location.mk loc.location_id (derase loc.inventory iid))) lid
              (Location.mk loc.location_id
                (dset (derase loc.inventory iid) iid (InventoryItem.mk iid q)))) := by
      simp [WarehouseService.transfer_inventory, hloc, hd, hq0, hm, hlt, hrm, hg1, hadd]
    rw [hred, saveState_false]
    refine ⟨rfl, ?_⟩
    intro k
    by_cases hk : lid = k
    · subst hk
      simp only [dget_dset, if_pos rfl, hloc, optLocEquiv]
      refine ⟨rfl, ?_⟩
      intro j
      by_cases hj : iid = j
      · subst hj
        simp only [dget_dset, if_pos rfl, hitem]
        cases item with
        | mk i qty =>
            simp at hfid hz ⊢
            exact ⟨hfid.symm, by omega⟩
      · simp only [dget_dset, if_neg hj]
        exact dget_derase_ne _ _ _ (fun he => hj he)
    · simp only [dget_dset, if_neg hk]
      exact optLocEquiv_refl _
  · have hrm : loc.remove_item iid q
        = .ok (Location.mk loc.location_id (dset loc.inventory iid
            (InventoryItem.mk item.item_id (item.quantity - q)))) := by
      simp [Location.remove_item, hitem, hnlt, hz]
    have hg1 : dget (dset st.locations lid
        (Location.mk loc.location_id (dset loc.inventory iid
          (InventoryItem.mk item.item_id (item.quantity - q))))) lid
        = some (Location.mk loc.location_id (dset loc.inventory iid
            (InventoryItem.mk item.item_id (item.quantity - q)))) := by
      simp [dget_dset]
    have hinv1 : dget (dset loc.inventory iid
        (InventoryItem.mk item.item_id (item.quantity - q))) iid
        = some (InventoryItem.mk item.item_id (item.quantity - q)) := by
      simp [dget_dset]
    have hadd : (Location.mk loc.location_id (dset loc.inventory iid
        (InventoryItem.mk item.item_id (item.quantity - q)))).add_item iid q
        = .ok (Location.mk loc.location_id
            (dset (dset loc.inventory iid (InventoryItem.mk item.item_id (item.quantity - q))) iid
              (InventoryItem.mk item.item_id (item.quantity - q + q)))) := by
      simp [Location.add_item, hinv1]
    have hred : WarehouseService.transfer_inventory false st lid lid iid q
        = WarehouseService.saveState false st
            (dset (dset st.locations lid (Location.mk loc.location_id (dset loc.inventory iid
                (InventoryItem.mk item.item_id (item.quantity - q))))) lid
              (Location.mk loc.location_id
                (dset (dset loc.inventory iid (InventoryItem.mk item.item_id (item.quantity - q))) iid
                  (InventoryItem.mk item.item_id (item.quantity - q + q))))) := by
      simp [WarehouseService.transfer_inventory, hloc, hd, hq0, hm, hlt, hrm, hg1, hadd]
    rw [hred, saveState_false]
    refine ⟨rfl, ?_⟩
    intro k
    by_cases hk : lid = k
    · subst hk
      simp only [dget_dset, if_pos rfl, hloc, optLocEquiv]
      refine ⟨rfl, ?_⟩
      intro j
      by_cases hj : iid = j
      · subst hj
        simp only [dget_dset, if_pos rfl, hitem]
        cases item with
        | mk i qty => simp
      · simp only [dget_dset, if_neg hj]
    · simp only [dget_dset, if_neg hk]
      exact optLocEquiv_refl _

theorem self_transfer_is_noop_witness :
    (WarehouseService.transfer_inventory false sampleState "A" "A" "i1" 5).1
      = none ∧
    locsEquiv
      (WarehouseService.transfer_inventory false sampleState "A" "A" "i1" 5).2.locations
      sampleState.locations :=
  self_transfer_is_noop sampleState "A" "i1" 5 sampleLocA
    { item_id := "i1", quantity := 5 }
    (by decide) (by decide) (by decide) (by decide) (by decide)

end Warehouse

namespace Warehouse

theorem remove_item_exact {loc : Location} {iid : String} {q : Int}
    {item : InventoryItem} (hitem : dget loc.inventory iid = some item)
    (hnlt : ¬ item.quantity < q) (hz : item.quantity - q = 0) :
    loc.remove_item iid q
      = .ok (Location.mk loc.location_id (derase loc.inventory iid)) := by
  simp [Location.remove_item, hitem, hnlt, hz]

theorem remove_item_remaining {loc : Location} {iid : String} {q : Int}
    {item : InventoryItem} (hitem : dget loc.inventory iid = some item)
    (hnlt : ¬ item.quantity < q) (hz : ¬ item.quantity - q = 0) :
    loc.remove_item iid q
      = .ok (Location.mk loc.location_id (dset loc.inventory iid
          (InventoryItem.mk item.item_id (item.quantity - q)))) := by
  simp [Location.remove_item, hitem, hnlt, hz]

theorem add_item_present {loc : Location} {iid : String} (q : Int)
    {item : InventoryItem} (hitem : dget loc.inventory iid = some item) :
    loc.add_item iid q
      = .ok (Location.mk loc.location_id (dset loc.inventory iid
          (InventoryItem.mk item.item_id (item.quantity + q)))) := by
  simp [Location.add_item, hitem]

theorem add_item_absent {loc : Location} {iid : String} {q : Int}
    (hnone : dget loc.inventory iid = none) (hv : validId iid = true)
    (hq : 0 < q) :
    loc.add_item iid q
      = .ok (Location.mk loc.location_id (dset loc.inventory iid
          (InventoryItem.mk iid q))) := by
  simp [Location.add_item, hnone, mkInventoryItem_ok hv hq]

theorem transfer_reduces (st : ServiceState) (src dst iid : String) (q : Int)
    (src_loc loc1 dest_loc dest' : Location)
    (hloc : dget st.locations src = some src_loc)
    (hd : dmem st.locations dst = true)
    (hq0 : ¬ q ≤ 0)
    (hm : dmem src_loc.inventory iid = true)
    (hlt : ¬ src_loc.get_item_quantity iid < q)
    (hrm : src_loc.remove_item iid q = .ok loc1)
    (hgd : dget (dset st.locations src loc1) dst = some dest_loc)
    (hadd : dest_loc.add_item iid q = .ok dest') :
    WarehouseService.transfer_inventory false st src dst iid q
      = (none, { locations := dset (dset st.locations src loc1) dst dest',
                 file := .content (encodeState
                   (dset (dset st.locations src loc1) dst dest')) }) := by
  simp [WarehouseService.transfer_inventory, hloc, hd, hq0, hm, hlt, hrm, hgd,
    hadd, saveState_false]

end Warehouse

namespace Warehouse

/-- C2 (amended: distinct source and destination): for `src ≠ dst`, a
transfer that passes its preconditions decreases the item's quantity at
`src` by `q`, increases it at `dst` by `q`, and conserves the sum; when
either location is missing, the item is absent at `src`, or `q` exceeds
the quantity available at `src`, the call raises an error and the whole
service state is unchanged. -/
theorem transfer_distinct_locations_spec (st : ServiceState)
    (src dst iid : String) (q : Int) (hne : src ≠ dst)
    (hWF : WFLocations st.locations = true) (hq : 0 < q) :
    (∀ src_loc item dest_loc,
      dget st.locations src = some src_loc →
      dget src_loc.inventory iid = some item →
      dget st.locations dst = some dest_loc →
      q ≤ item.quantity →
      (WarehouseService.transfer_inventory false st src dst iid q).1 = none ∧
      quantityAt (WarehouseService.transfer_inventory false st src dst iid q).2
          src iid
        = quantityAt st src iid - q ∧
      quantityAt (WarehouseService.transfer_inventory false st src dst iid q).2
          dst iid
        = quantityAt st dst iid + q ∧
      quantityAt (WarehouseService.transfer_inventory false st src dst iid q).2
            src iid
          + quantityAt (WarehouseService.transfer_inventory false st src dst iid q).2
            dst iid
        = quantityAt st src iid + quantityAt st dst iid) ∧
    ((dget st.locations src = none ∨ dget st.locations dst = none ∨
        itemAt st src iid = none ∨
        (∃ item, itemAt st src iid = some item ∧ item.quantity < q)) →
      ∃ e, WarehouseService.transfer_inventory false st src dst iid q
        = (some e, st)) := by
  constructor
  · intro src_loc item dest_loc hloc hitem hgd hle
    obtain ⟨hli, hvl, hwi⟩ := WFLocations_lookup hWF hloc
    obtain ⟨hfid, hvid, hpos⟩ := WFInventory_lookup hwi hitem
    have hnd := WFInventory_nodup hwi
    have hd : dmem st.locations dst = true := by simp [dmem, hgd]
    have hq0 : ¬ q ≤ 0 := by omega
    have hm : dmem src_loc.inventory iid = true := by simp [dmem, hitem]
    have hnlt : ¬ item.quantity < q := by omega
    have hlt : ¬ src_loc.get_item_quantity iid < q := by
      simp [Location.get_item_quantity, hitem]
      omega
    have hQsrc : quantityAt st src iid = item.quantity := by
      simp [quantityAt, hloc, Location.get_item_quantity, hitem]
    have hQdst : quantityAt st dst iid = dest_loc.get_item_quantity iid := by
      simp [quantityAt, hgd]
    have hdstsrc : ¬ dst = src := fun h => hne h.symm
    by_cases hz : item.quantity - q = 0
    · have hrm := remove_item_exact hitem hnlt hz
      have hgd1 : dget (dset st.locations src
          (Location.mk src_loc.location_id (derase src_loc.inventory iid))) dst
          = some dest_loc := by
        rw [dget_dset, if_neg hne]
        exact hgd
      cases hbi : dget dest_loc.inventory iid with
      | some itemB =>
          have hadd := add_item_present q hbi
          have hred := transfer_reduces st src dst iid q src_loc _ dest_loc _
            hloc hd hq0 hm hlt hrm hgd1 hadd
          have e1 : quantityAt
              (WarehouseService.transfer_inventory false st src dst iid q).2 src iid
              = quantityAt st src iid - q := by
            rw [hred]
            simp [quantityAt, dget_dset, hdstsrc, Location.get_item_quantity,
              dget_derase_self _ _ hnd, hloc, hitem]
            omega
          have e2 : quantityAt
              (WarehouseService.transfer_inventory false st src dst iid q).2 dst iid
              = quantityAt st dst iid + q := by
            rw [hred]
            simp [quantityAt, dget_dset, Location.get_item_quantity, hgd, hbi]
          exact ⟨by rw [hred], e1, e2, by rw [e1, e2]; ring⟩
      | none =>
          have hadd := add_item_absent hbi hvid hq
          have hred := transfer_reduces st src dst iid q src_loc _ dest_loc _
            hloc hd hq0 hm hlt hrm hgd1 hadd
          have e1 : quantityAt
              (WarehouseService.transfer_inventory false st src dst iid q).2 src iid
              = quantityAt st src iid - q := by
            rw [hred]
            simp [quantityAt, dget_dset, hdstsrc, Location.get_item_quantity,
              dget_derase_self _ _ hnd, hloc, hitem]
            omega
          have e2 : quantityAt
              (WarehouseService.transfer_inventory false st src dst iid q).2 dst iid
              = quantityAt st dst iid + q := by
            rw [hred]
            simp [quantityAt, dget_dset, Location.get_item_quantity, hgd, hbi]
          exact ⟨by rw [hred], e1, e2, by rw [e1, e2]; ring⟩
    · have hrm := remove_item_remaining hitem hnlt hz
      have hgd1 : dget (dset st.locations src
          (Location.mk src_loc.location_id (dset src_loc.inventory iid
            (InventoryItem.mk item.item_id (item.quantity - q))))) dst
          = some dest_loc := by
        rw [dget_dset, if_neg hne]
        exact hgd
      cases hbi : dget dest_loc.inventory iid with
      | some itemB =>
          have hadd := add_item_present q hbi
          have hred := transfer_reduces st src dst iid q src_loc _ dest_loc _
            hloc hd hq0 hm hlt hrm hgd1 hadd
          have e1 : quantityAt
              (WarehouseService.transfer_inventory false st src dst iid q).2 src iid
              = quantityAt st src iid - q := by
            rw [hred]
            simp [quantityAt, dget_dset, hdstsrc, Location.get_item_quantity,
              hloc, hitem]
          have e2 : quantityAt
              (WarehouseService.transfer_inventory false st src dst iid q).2 dst iid
              = quantityAt st dst iid + q := by
            rw [hred]
            simp [quantityAt, dget_dset, Location.get_item_quantity, hgd, hbi]
          exact ⟨by rw [hred], e1, e2, by rw [e1, e2]; ring⟩
      | none =>
          have hadd := add_item_absent hbi hvid hq
          have hred := transfer_reduces st src dst iid q src_loc _ dest_loc _
            hloc hd hq0 hm hlt hrm hgd1 hadd
          have e1 : quantityAt
              (WarehouseService.transfer_inventory false st src dst iid q).2 src iid
              = quantityAt st src iid - q := by
            rw [hred]
            simp [quantityAt, dget_dset, hdstsrc, Location.get_item_quantity,
              hloc, hitem]
          have e2 : quantityAt
              (WarehouseService.transfer_inventory false st src dst iid q).2 dst iid
              = quantityAt st dst iid + q := by
            rw [hred]
            simp [quantityAt, dget_dset, Location.get_item_quantity, hgd, hbi]
          exact ⟨by rw [hred], e1, e2, by rw [e1, e2]; ring⟩
  · intro hfail
    cases hA : dget st.locations src with
    | none =>
        exact ⟨.locationNotFound src,
          by simp [WarehouseService.transfer_inventory, hA]⟩
    | some src_loc =>
        cases hB : dget st.locations dst with
        | none =>
            have hd : dmem st.locations dst = false := by simp [dmem, hB]
            exact ⟨.locationNotFound dst,
              by simp [WarehouseService.transfer_inventory, hA, hd]⟩
        | some dest_loc =>
            have hd : dmem st.locations dst = true := by simp [dmem, hB]
            have hq0 : ¬ q ≤ 0 := by omega
            cases hI : dget src_loc.inventory iid with
            | none =>
                have hm : dmem src_loc.inventory iid = false := by
                  simp [dmem, hI]
                exact ⟨.itemNotFound iid src,
                  by simp [WarehouseService.transfer_inventory, hA, hd, hq0, hm]⟩
            | some item =>
                have hm : dmem src_loc.inventory iid = true := by simp [dmem, hI]
                have hIs : itemAt st src iid = some item := by
                  simp [itemAt, hA, hI]
                have hins : item.quantity < q := by
                  rcases hfail with h | h | h | ⟨item2, hIs2, hlt2⟩
                  · rw [hA] at h
                    exact absurd h (by simp)
                  · rw [hB] at h
                    exact absurd h (by simp)
                  · rw [hIs] at h
                    exact absurd h (by simp)
                  · rw [hIs] at hIs2
                    cases hIs2
                    exact hlt2
                have hltq : src_loc.get_item_quantity iid < q := by
                  simp [Location.get_item_quantity, hI, hins]
                have hav : src_loc.get_item_quantity iid = item.quantity := by
                  simp [Location.get_item_quantity, hI]
                exact ⟨.insufficientQuantity iid src q item.quantity,
                  by simp [WarehouseService.transfer_inventory, hA, hd, hq0, hm,
                    hav, hins]⟩

theorem transfer_distinct_locations_spec_witness :
    (WarehouseService.transfer_inventory false sampleState2 "A" "B" "i1" 2).1
        = none ∧
    quantityAt (WarehouseService.transfer_inventory false sampleState2 "A" "B" "i1" 2).2
        "A" "i1" = quantityAt sampleState2 "A" "i1" - 2 ∧
    quantityAt (WarehouseService.transfer_inventory false sampleState2 "A" "B" "i1" 2).2
        "B" "i1" = quantityAt sampleState2 "B" "i1" + 2 ∧
    quantityAt (WarehouseService.transfer_inventory false sampleState2 "A" "B" "i1" 2).2
          "A" "i1"
        + quantityAt (WarehouseService.transfer_inventory false sampleState2 "A" "B" "i1" 2).2
          "B" "i1"
      = quantityAt sampleState2 "A" "i1" + quantityAt sampleState2 "B" "i1" :=
  (transfer_distinct_locations_spec sampleState2 "A" "B" "i1" 2
      (by decide) (by decide) (by decide)).1
    { location_id := "A", inventory := [("i1", { item_id := "i1", quantity := 5 })] }
    { item_id := "i1", quantity := 5 }
    { location_id := "B", inventory := [] }
    (by decide) (by decide) (by decide) (by decide)

/-- C2 as stated is false when source and destination coincide: the
self-transfer succeeds but the quantity does not decrease by `q`. -/
theorem transfer_claim_fails_for_equal_locations :
    (WarehouseService.transfer_inventory false sampleState "A" "A" "i1" 2).1
        = none ∧
    ¬ (quantityAt (WarehouseService.transfer_inventory false sampleState "A" "A" "i1" 2).2
          "A" "i1"
        = quantityAt sampleState "A" "i1" - 2) := by
  decide

end Warehouse

namespace Warehouse

theorem register_failed_effects (lockFail : Bool) (st : ServiceState)
    (lid : String) (e : WarehouseError)
    (he : (WarehouseService.register_location lockFail st lid).1 = some e) :
    (WarehouseService.register_location lockFail st lid).2.file = st.file ∧
    (e.isStorage = false →
      (WarehouseService.register_location lockFail st lid).2 = st) := by
  by_cases hm : dmem st.locations lid
  · have hout : WarehouseService.register_location lockFail st lid
        = (some (.locationAlreadyExists lid), st) := by
      simp [WarehouseService.register_location, hm]
    rw [hout]
    exact ⟨rfl, fun _ => rfl⟩
  · cases hmk : mkLocation lid with
    | error e0 =>
        have hout : WarehouseService.register_location lockFail st lid
            = (some e0, st) := by
          simp [WarehouseService.register_location, hm, hmk]
        rw [hout]
        exact ⟨rfl, fun _ => rfl⟩
    | ok loc =>
        cases lockFail with
        | false =>
            have hout : (WarehouseService.register_location false st lid).1
                = none := by
              simp [WarehouseService.register_location, hm, hmk, saveState_false]
            rw [hout] at he
            exact absurd he (by simp)
        | true =>
            have hout : WarehouseService.register_location true st lid
                = (some (.storageError "Failed to acquire file lock"),
                   { locations := dset st.locations lid loc, file := st.file }) := by
              simp [WarehouseService.register_location, hm, hmk, saveState_eq]
            rw [hout] at he ⊢
            refine ⟨rfl, fun habs => ?_⟩
            simp at he
            rw [← he] at habs
            simp [WarehouseError.isStorage] at habs

theorem unregister_failed_effects (lockFail : Bool) (st : ServiceState)
    (lid : String) (e : WarehouseError)
    (he : (WarehouseService.unregister_location lockFail st lid).1 = some e) :
    (WarehouseService.unregister_location lockFail st lid).2.file = st.file ∧
    (e.isStorage = false →
      (WarehouseService.unregister_location lockFail st lid).2 = st) := by
  cases hg : dget st.locations lid with
  | none =>
      have hout : WarehouseService.unregister_location lockFail st lid
          = (some (.locationNotFound lid), st) := by
        simp [WarehouseService.unregister_location, hg]
      rw [hout]
      exact ⟨rfl, fun _ => rfl⟩
  | some loc =>
      by_cases hi : loc.has_inventory
      · have hout : WarehouseService.unregister_location lockFail st lid
            = (some (.locationHasInventory lid), st) := by
          simp [WarehouseService.unregister_location, hg, hi]
        rw [hout]
        exact ⟨rfl, fun _ => rfl⟩
      · cases lockFail with
        | false =>
            have hout : (WarehouseService.unregister_location false st lid).1
                = none := by
              simp [WarehouseService.unregister_location, hg, hi, saveState_false]
            rw [hout] at he
            exact absurd he (by simp)
        | true =>
            have hout : WarehouseService.unregister_location true st lid
                = (some (.storageError "Failed to acquire file lock"),
                   { locations := derase st.locations lid, file := st.file }) := by
              simp [WarehouseService.unregister_location, hg, hi, saveState_eq]
            rw [hout] at he ⊢
            refine ⟨rfl, fun habs => ?_⟩
            simp at he
            rw [← he] at habs
            simp [WarehouseError.isStorage] at habs

theorem increment_failed_effects (lockFail : Bool) (st : ServiceState)
    (lid iid : String) (q : Int) (e : WarehouseError)
    (he : (WarehouseService.increment_inventory lockFail st lid iid q).1
      = some e) :
    (WarehouseService.increment_inventory lockFail st lid iid q).2.file
      = st.file ∧
    (e.isStorage = false →
      (WarehouseService.increment_inventory lockFail st lid iid q).2 = st) := by
  cases hg : dget st.locations lid with
  | none =>
      have hout : WarehouseService.increment_inventory lockFail st lid iid q
          = (some (.locationNotFound lid), st) := by
        simp [WarehouseService.increment_inventory, hg]
      rw [hout]
      exact ⟨rfl, fun _ => rfl⟩
  | some loc =>
      by_cases hq : q ≤ 0
      · have hout : WarehouseService.increment_inventory lockFail st lid iid q
            = (some (.valueError "Quantity must be positive"), st) := by
          simp [WarehouseService.increment_inventory, hg, hq]
        rw [hout]
        exact ⟨rfl, fun _ => rfl⟩
      · cases ha : loc.add_item iid q with
        | error e0 =>
            have hout : WarehouseService.increment_inventory lockFail st lid iid q
                = (some e0, st) := by
              simp [WarehouseService.increment_inventory, hg, hq, ha]
            rw [hout]
            exact ⟨rfl, fun _ => rfl⟩
        | ok loc' =>
            cases lockFail with
            | false =>
                have hout : (WarehouseService.increment_inventory false st lid iid q).1
                    = none := by
                  simp [WarehouseService.increment_inventory, hg, hq, ha,
                    saveState_false]
                rw [hout] at he
                exact absurd he (by simp)
            | true =>
                have hout : WarehouseService.increment_inventory true st lid iid q
                    = (some (.storageError "Failed to acquire file lock"),
                       { locations := dset st.locations lid loc',
                         file := st.file }) := by
                  simp [WarehouseService.increment_inventory, hg, hq, ha,
                    saveState_eq]
                rw [hout] at he ⊢
                refine ⟨rfl, fun habs => ?_⟩
                simp at he
                rw [← he] at habs
                simp [WarehouseError.isStorage] at habs

end Warehouse

namespace Warehouse

theorem decrement_failed_effects (lockFail : Bool) (st : ServiceState)
    (lid iid : String) (q : Int) (e : WarehouseError)
    (he : (WarehouseService.decrement_inventory lockFail st lid iid q).1
      = some e) :
    (WarehouseService.decrement_inventory lockFail st lid iid q).2.file
      = st.file ∧
    (e.isStorage = false →
      (WarehouseService.decrement_inventory lockFail st lid iid q).2 = st) := by
  cases hg : dget st.locations lid with
  | none =>
      have hout : WarehouseService.decrement_inventory lockFail st lid iid q
          = (some (.locationNotFound lid), st) := by
        simp [WarehouseService.decrement_inventory, hg]
      rw [hout]
      exact ⟨rfl, fun _ => rfl⟩
  | some loc =>
      by_cases hq : q ≤ 0
      · have hout : WarehouseService.decrement_inventory lockFail st lid iid q
            = (some (.valueError "Quantity must be positive"), st) := by
          simp [WarehouseService.decrement_inventory, hg, hq]
        rw [hout]
        exact ⟨rfl, fun _ => rfl⟩
      · by_cases hm : dmem loc.inventory iid
        · by_cases hlt : loc.get_item_quantity iid < q
          · have hout : WarehouseService.decrement_inventory lockFail st lid iid q
                = (some (.insufficientQuantity iid lid q
                    (loc.get_item_quantity iid)), st) := by
              simp [WarehouseService.decrement_inventory, hg, hq, hm, hlt]
            rw [hout]
            exact ⟨rfl, fun _ => rfl⟩
          · cases hr : loc.remove_item iid q with
            | error e0 =>
                cases e0 with
                | keyError msg =>
                    have hout : WarehouseService.decrement_inventory lockFail st lid iid q
                        = (some (.itemNotFound iid lid), st) := by
                      simp [WarehouseService.decrement_inventory, hg, hq, hm, hlt, hr]
                    rw [hout]
                    exact ⟨rfl, fun _ => rfl⟩
                | valueError msg =>
                    have hout : WarehouseService.decrement_inventory lockFail st lid iid q
                        = (some (.insufficientQuantity iid lid q
                            (loc.get_item_quantity iid)), st) := by
                      simp [WarehouseService.decrement_inventory, hg, hq, hm, hlt, hr]
                    rw [hout]
                    exact ⟨rfl, fun _ => rfl⟩
                | locationAlreadyExists lid2 =>
                    have : False := by
                      cases h2 : dget loc.inventory iid with
                      | none => simp [Location.remove_item, h2] at hr
                      | some item =>
                          by_cases h3 : item.quantity < q
                          · simp [Location.remove_item, h2, h3] at hr
                          · by_cases h4 : item.quantity - q = 0 <;>
                              simp [Location.remove_item, h2, h3, h4] at hr
                    exact absurd this (by simp)
                | locationNotFound lid2 =>
                    have : False := by
                      cases h2 : dget loc.inventory iid with
                      | none => simp [Location.remove_item, h2] at hr
                      | some item =>
                          by_cases h3 : item.quantity < q
                          · simp [Location.remove_item, h2, h3] at hr
                          · by_cases h4 : item.quantity - q = 0 <;>
                              simp [Location.remove_item, h2, h3, h4] at hr
                    exact absurd this (by simp)
                | locationHasInventory lid2 =>
                    have : False := by
                      cases h2 : dget loc.inventory iid with
                      | none => simp [Location.remove_item, h2] at hr
                      | some item =>
                          by_cases h3 : item.quantity < q
                          · simp [Location.remove_item, h2, h3] at hr
                          · by_cases h4 : item.quantity - q = 0 <;>
                              simp [Location.remove_item, h2, h3, h4] at hr
                    exact absurd this (by simp)
                | itemNotFound iid2 lid2 =>
                    have : False := by
                      cases h2 : dget loc.inventory iid with
                      | none => simp [Location.remove_item, h2] at hr
                      | some item =>
                          by_cases h3 : item.quantity < q
                          · simp [Location.remove_item, h2, h3] at hr
                          · by_cases h4 : item.quantity - q = 0 <;>
                              simp [Location.remove_item, h2, h3, h4] at hr
                    exact absurd this (by simp)
                | insufficientQuantity iid2 lid2 r a =>
                    have : False := by
                      cases h2 : dget loc.inventory iid with
                      | none => simp [Location.remove_item, h2] at hr
                      | some item =>
                          by_cases h3 : item.quantity < q
                          · simp [Location.remove_item, h2, h3] at hr
                          · by_cases h4 : item.quantity - q = 0 <;>
                              simp [Location.remove_item, h2, h3, h4] at hr
                    exact absurd this (by simp)
                | storageError msg =>
                    have : False := by
                      cases h2 : dget loc.inventory iid with
                      | none => simp [Location.remove_item, h2] at hr
                      | some item =>
                          by_cases h3 : item.quantity < q
                          · simp [Location.remove_item, h2, h3] at hr
                          · by_cases h4 : item.quantity - q = 0 <;>
                              simp [Location.remove_item, h2, h3, h4] at hr
                    exact absurd this (by simp)
            | ok loc' =>
                cases lockFail with
                | false =>
                    have hout : (WarehouseService.decrement_inventory false st lid iid q).1
                        = none := by
                      simp [WarehouseService.decrement_inventory, hg, hq, hm, hlt,
                        hr, saveState_false]
                    rw [hout] at he
                    exact absurd he (by simp)
                | true =>
                    have hout : WarehouseService.decrement_inventory true st lid iid q
                        = (some (.storageError "Failed to acquire file lock"),
                           { locations := dset st.locations lid loc',
                             file := st.file }) := by
                      simp [WarehouseService.decrement_inventory, hg, hq, hm, hlt,
                        hr, saveState_eq]
                    rw [hout] at he ⊢
                    refine ⟨rfl, fun habs => ?_⟩
                    simp at he
                    rw [← he] at habs
                    simp [WarehouseError.isStorage] at habs
        · have hout : WarehouseService.decrement_inventory lockFail st lid iid q
              = (some (.itemNotFound iid lid), st) := by
            simp [WarehouseService.decrement_inventory, hg, hq, hm]
          rw [hout]
          exact ⟨rfl, fun _ => rfl⟩

end Warehouse

namespace Warehouse

theorem transfer_failed_effects (lockFail : Bool) (st : ServiceState)
    (src dst iid : String) (q : Int) (e : WarehouseError)
    (hWF : WFLocations st.locations = true)
    (he : (WarehouseService.transfer_inventory lockFail st src dst iid q).1
      = some e) :
    (WarehouseService.transfer_inventory lockFail st src dst iid q).2.file
      = st.file ∧
    (e.isStorage = false →
      (WarehouseService.transfer_inventory lockFail st src dst iid q).2 = st) := by
  cases hg : dget st.locations src with
  | none =>
      have hout : WarehouseService.transfer_inventory lockFail st src dst iid q
          = (some (.locationNotFound src), st) := by
        simp [WarehouseService.transfer_inventory, hg]
      rw [hout]
      exact ⟨rfl, fun _ => rfl⟩
  | some src_loc =>
      by_cases hd : dmem st.locations dst
      · by_cases hq : q ≤ 0
        · have hout : WarehouseService.transfer_inventory lockFail st src dst iid q
              = (some (.valueError "Quantity must be positive"), st) := by
            simp [WarehouseService.transfer_inventory, hg, hd, hq]
          rw [hout]
          exact ⟨rfl, fun _ => rfl⟩
        · by_cases hm : dmem src_loc.inventory iid
          · by_cases hlt : src_loc.get_item_quantity iid < q
            · have hout : WarehouseService.transfer_inventory lockFail st src dst iid q
                  = (some (.insufficientQuantity iid src q
                      (src_loc.get_item_quantity iid)), st) := by
                simp [WarehouseService.transfer_inventory, hg, hd, hq, hm, hlt]
              rw [hout]
              exact ⟨rfl, fun _ => rfl⟩
            · obtain ⟨item, hitem⟩ := Option.isSome_iff_exists.mp hm
              obtain ⟨hli, hvl, hwi⟩ := WFLocations_lookup hWF hg
              obtain ⟨hfid, hvid, hpos⟩ := WFInventory_lookup hwi hitem
              cases hr : src_loc.remove_item iid q with
              | error e0 =>
                  have hout : WarehouseService.transfer_inventory lockFail st src dst iid q
                      = (some e0, st) := by
                    simp [WarehouseService.transfer_inventory, hg, hd, hq, hm,
                      hlt, hr]
                  rw [hout]
                  exact ⟨rfl, fun _ => rfl⟩
              | ok src_loc' =>
                  cases hgd : dget (dset st.locations src src_loc') dst with
                  | none =>
                      rw [dget_dset] at hgd
                      by_cases hsd : src = dst
                      · rw [if_pos hsd] at hgd
                        exact absurd hgd (by simp)
                      · rw [if_neg hsd] at hgd
                        rw [dmem, hgd] at hd
                        exact absurd hd (by simp)
                  | some dest_loc =>
                      cases hadd : dest_loc.add_item iid q with
                      | error e0 =>
                          cases hbi : dget dest_loc.inventory iid with
                          | some itemB =>
                              rw [add_item_present q hbi] at hadd
                              exact absurd hadd (by simp)
                          | none =>
                              rw [add_item_absent hbi hvid (by omega)] at hadd
                              exact absurd hadd (by simp)
                      | ok dest_loc' =>
                          cases lockFail with
                          | false =>
                              have hout : (WarehouseService.transfer_inventory false st src dst iid q).1
                                  = none := by
                                simp [WarehouseService.transfer_inventory, hg, hd,
                                  hq, hm, hlt, hr, hgd, hadd, saveState_false]
                              rw [hout] at he
                              exact absurd he (by simp)
                          | true =>
                              have hout : WarehouseService.transfer_inventory true st src dst iid q
                                  = (some (.storageError "Failed to acquire file lock"),
                                     { locations := dset (dset st.locations src src_loc')
                                         dst dest_loc', file := st.file }) := by
                                simp [WarehouseService.transfer_inventory, hg, hd,
                                  hq, hm, hlt, hr, hgd, hadd, saveState_eq]
                              rw [hout] at he ⊢
                              refine ⟨rfl, fun habs => ?_⟩
                              simp at he
                              rw [← he] at habs
                              simp [WarehouseError.isStorage] at habs
          · have hout : WarehouseService.transfer_inventory lockFail st src dst iid q
                = (some (.itemNotFound iid src), st) := by
              simp [WarehouseService.transfer_inventory, hg, hd, hq, hm]
            rw [hout]
            exact ⟨rfl, fun _ => rfl⟩
      · have hout : WarehouseService.transfer_inventory lockFail st src dst iid q
            = (some (.locationNotFound dst), st) := by
          simp [WarehouseService.transfer_inventory, hg, hd]
        rw [hout]
        exact ⟨rfl, fun _ => rfl⟩

/-- C1 (amended): a mutating operation that fails always leaves the
on-disk snapshot unchanged; when the failure is anything other than the
persist step's `StorageError`, the in-memory state is also unchanged.
When the persist step raises `StorageError`, the in-memory state keeps
the operation's mutation while the disk keeps the previous snapshot
(there is no rollback). -/
theorem failed_mutation_effects (lockFail : Bool) (op : Op) (st : ServiceState)
    (hWF : WFLocations st.locations = true) (e : WarehouseError)
    (he : (applyOp lockFail op st).1 = some e) :
    (applyOp lockFail op st).2.file = st.file ∧
    (e.isStorage = false → (applyOp lockFail op st).2 = st) := by
  cases op with
  | register lid => exact register_failed_effects lockFail st lid e he
  | unregister lid => exact unregister_failed_effects lockFail st lid e he
  | increment lid iid q => exact increment_failed_effects lockFail st lid iid q e he
  | decrement lid iid q => exact decrement_failed_effects lockFail st lid iid q e he
  | transfer src dst iid q =>
      exact transfer_failed_effects lockFail st src dst iid q e hWF he

theorem failed_mutation_effects_witness :
    (applyOp false (.register "A") sampleState).2.file = sampleState.file ∧
    ((WarehouseError.locationAlreadyExists "A").isStorage = false →
      (applyOp false (.register "A") sampleState).2 = sampleState) :=
  failed_mutation_effects false (.register "A") sampleState (by decide)
    (.locationAlreadyExists "A") (by decide)

/-- C1 as stated is false: when the persist step fails with a
`StorageError`, the already-applied in-memory mutation survives — here a
failed `register_location` still adds the location to the in-memory
dict. -/
theorem storage_failure_keeps_memory_mutation :
    (WarehouseService.register_location true
        { locations := [], file := FileContent.missing } "L1").1
      = some (.storageError "Failed to acquire file lock") ∧
    (WarehouseService.register_location true
        { locations := [], file := FileContent.missing } "L1").2.locations
      ≠ ([] : List (String × Location)) := by
  decide

end Warehouse
